import Mathlib

/-!
Verification of the retry / marshaling logic of the AWS IoT Analytics and
Greengrass Terraform provider resources.

The repository's only algorithmic component is a fixed-schedule retry loop,
repeated verbatim in `resourceAwsIotAnalyticsChannelCreate`,
`resourceAwsIotAnalyticsChannelUpdate`, `resourceAwsIotAnalyticsDatastoreCreate`
and `resourceAwsIotAnalyticsDatastoreUpdate`:

    retrySecondsList := [6]int{1, 2, 5, 8, 10, 0}
    var err error
    for _, sleepSeconds := range retrySecondsList {
        err = nil
        _, err = conn.CreateChannel(params)
        if err == nil { break }
        time.Sleep(time.Duration(sleepSeconds) * time.Second)
    }

We embed the loop with the remote call abstracted as `call : Nat → Option ε`
(`call k` is the outcome of the k-th invocation, `none` = success,
`some e` = the error the call returned), and record the invocation count,
the list of executed sleep durations (in seconds, in order) and the final
value of `err`.
-/

/-- The Go loop's observable behaviour: how many times the remote call ran,
which sleep durations were executed (in order), and the final `err`. -/
structure RetryResult (ε : Type) where
  invocations : Nat
  sleeps : List Nat
  err : Option ε
deriving DecidableEq, Repr

/-- `retrySecondsList := [6]int{1, 2, 5, 8, 10, 0}` — the fixed schedule. -/
def retrySecondsList : List Nat := [1, 2, 5, 8, 10, 0]

/-- The body of the Go `for _, sleepSeconds := range list` loop: `k` is the
index of the next invocation, the third argument the value of `err` carried
into the iteration (`err = nil` is immediately overwritten by the call's
outcome; on success the loop breaks before sleeping, on failure it sleeps
the current schedule entry and continues). -/
def retryLoopAux {ε : Type} (call : Nat → Option ε) :
    List Nat → Nat → Option ε → RetryResult ε
  | [], _, err => ⟨0, [], err⟩
  | s :: rest, k, _ =>
    match call k with
    | none => ⟨1, [], none⟩
    | some e =>
      let r := retryLoopAux call rest (k + 1) (some e)
      ⟨r.invocations + 1, s :: r.sleeps, r.err⟩

/-- The whole retry block: run the loop over `retrySecondsList` starting from
invocation 0 with `var err error` (i.e. `none`) as the initial error. -/
def runRetry {ε : Type} (call : Nat → Option ε) : RetryResult ε :=
  retryLoopAux call retrySecondsList 0 none

/-!
The tail of `resourceAwsIotAnalyticsChannelCreate` / `...DatastoreCreate`
after the retry block:

    if err != nil { return err }
    d.SetId(d.Get("name").(string))
    return resourceAwsIotAnalyticsChannelRead(d, meta)

We record whether `d.SetId` ran (and with which value), whether the re-read
of the remote resource ran, and the function's returned error.  The remote
call is abstracted as in `runRetry`; `readResult` is the outcome of the
`Read` handler the create delegates to on success.
-/

/-- Observable outcome of a channel/datastore create handler. -/
structure CreateResult (ε : Type) where
  retry : RetryResult ε
  resourceId : Option String
  readCalled : Bool
  ret : Option ε

/-- `resourceAwsIotAnalyticsChannelCreate`: retry `conn.CreateChannel` over
the fixed schedule; on persistent failure return the last error without
touching the id; on success set the id to the `name` attribute and return
the result of `resourceAwsIotAnalyticsChannelRead`. -/
def resourceAwsIotAnalyticsChannelCreate {ε : Type} (name : String)
    (createChannel : Nat → Option ε) (readResult : Option ε) : CreateResult ε :=
  let r := runRetry createChannel
  match r.err with
  | some e => ⟨r, none, false, some e⟩
  | none => ⟨r, some name, true, readResult⟩

/-- `resourceAwsIotAnalyticsDatastoreCreate`: same structure as the channel
create, with `conn.CreateDatastore` as the retried call. -/
def resourceAwsIotAnalyticsDatastoreCreate {ε : Type} (name : String)
    (createDatastore : Nat → Option ε) (readResult : Option ε) : CreateResult ε :=
  let r := runRetry createDatastore
  match r.err with
  | some e => ⟨r, none, false, some e⟩
  | none => ⟨r, some name, true, readResult⟩

/-- `resourceAwsIotAnalyticsChannelUpdate`: retry `conn.UpdateChannel` over
the fixed schedule; on persistent failure return the last error, on success
return the result of the re-read. -/
def resourceAwsIotAnalyticsChannelUpdate {ε : Type} (updateChannel : Nat → Option ε)
    (readResult : Option ε) : RetryResult ε × Option ε :=
  let r := runRetry updateChannel
  match r.err with
  | some e => (r, some e)
  | none => (r, readResult)

/-- `resourceAwsIotAnalyticsDatastoreUpdate`: same structure as the channel
update, with `conn.UpdateDatastore` as the retried call. -/
def resourceAwsIotAnalyticsDatastoreUpdate {ε : Type} (updateDatastore : Nat → Option ε)
    (readResult : Option ε) : RetryResult ε × Option ε :=
  let r := runRetry updateDatastore
  match r.err with
  | some e => (r, some e)
  | none => (r, readResult)

/-!
The retention-period codec.  The raw attribute bag entry for
`retention_period` holds the keys `number_of_days` (int) and `unlimited`
(bool); a key's absence is modelled as `none`.  The SDK struct
`iotanalytics.RetentionPeriod` has nil-able fields `NumberOfDays` and
`Unlimited`.
-/

/-- The `retention_period` attribute-bag entry (`map[string]interface{}`):
`some v` when the key is present with value `v`. -/
structure RawRetentionPeriod where
  numberOfDays : Option Int
  unlimited : Option Bool
deriving DecidableEq, Repr

/-- The SDK struct `iotanalytics.RetentionPeriod` (pointer fields). -/
structure RetentionPeriod where
  numberOfDays : Option Int
  unlimited : Option Bool
deriving DecidableEq, Repr

/-- `parseRetentionPeriod` of the channel and datastore resources:
`NumberOfDays` is set only when the key is present and `int64(v.(int)) > 1`;
`Unlimited` whenever its key is present. -/
def parseRetentionPeriod (raw : RawRetentionPeriod) : RetentionPeriod :=
  let numberOfDays : Option Int :=
    match raw.numberOfDays with
    | some v => if 1 < v then some v else none
    | none => none
  let unlimited : Option Bool :=
    match raw.unlimited with
    | some v => some v
    | none => none
  ⟨numberOfDays, unlimited⟩

/-- `validation.IntAtLeast(lo)` — the schema validator attached to
`number_of_days` with `lo = 1`: accepts `v` when `lo ≤ v`. -/
def validationIntAtLeast (lo v : Int) : Bool := decide (lo ≤ v)

/-!
The customer-managed S3 codec.  The SDK struct
`iotanalytics.CustomerManagedChannelS3Storage` (the datastore variant is
field-for-field identical) has nil-able string fields `Bucket`, `RoleArn`,
`KeyPrefix`.  The raw attribute-bag map written by `flattenCustomerManagedS3`
always carries the `bucket` and `role_arn` keys (via `aws.StringValue`,
which maps nil to `""`) and carries `key_prefix` exactly when the struct's
`KeyPrefix` is non-nil; `parseCustomerManagedS3` reads `bucket` and
`role_arn` unconditionally and `key_prefix` only when present with
`len(v) >= 1`.
-/

/-- The SDK struct `CustomerManaged(Channel|Datastore)S3Storage`. -/
structure CustomerManagedS3Storage where
  bucket : Option String
  roleArn : Option String
  keyPrefix : Option String
deriving DecidableEq, Repr

/-- The raw `customer_managed_s3` attribute-bag map: `bucket` and `role_arn`
always present, `key_prefix` present or absent. -/
structure RawCustomerManagedS3 where
  bucket : String
  roleArn : String
  keyPrefix : Option String
deriving DecidableEq, Repr

/-- `parseCustomerManagedS3`: `Bucket` and `RoleArn` from the required keys;
`KeyPrefix` only when the key is present and the string has length ≥ 1. -/
def parseCustomerManagedS3 (raw : RawCustomerManagedS3) : CustomerManagedS3Storage :=
  { bucket := some raw.bucket
    roleArn := some raw.roleArn
    keyPrefix :=
      match raw.keyPrefix with
      | some v => if 1 ≤ v.length then some v else none
      | none => none }

/-- `flattenCustomerManagedS3`: nil in, nil out; otherwise `bucket` and
`role_arn` via `aws.StringValue` (nil ↦ `""`), `key_prefix` set exactly when
`KeyPrefix` is non-nil. -/
def flattenCustomerManagedS3 (x : Option CustomerManagedS3Storage) :
    Option RawCustomerManagedS3 :=
  match x with
  | none => none
  | some s =>
    some { bucket := s.bucket.getD ""
           roleArn := s.roleArn.getD ""
           keyPrefix := s.keyPrefix }

/-!
The Greengrass version-creation helpers `createGroupVersion` and
`createLoggerDefinitionVersion`.  Both read the (at most one-element)
version set from the configuration: when it is empty they return nil at
once, without calling the API.  Otherwise they build the request — with the
`AMZN_CLIENT_TOKEN` environment variable forwarded as `AmznClientToken`
when `os.Getenv` returns a non-empty string — issue the one API call, and
return its error.  The environment is modelled as `Option String` (the
variable present with a value, or absent); the API as a function from the
request to an optional error.  We record the list of issued requests so
that the frame property (no call ⇒ no remote-state change) is expressible.
-/

/-- `os.Getenv`: an absent variable reads as the empty string. -/
def osGetenv (env : Option String) : String := env.getD ""

/-- Requests a function issued, with the function's returned error. -/
structure CallOutcome (ρ : Type) (ε : Type) where
  requests : List ρ
  err : Option ε

/-- Replaying a request log against a remote state: each issued request
steps the state; an empty log leaves it untouched. -/
def applyRequests {σ ρ : Type} (step : σ → ρ → σ) (s : σ) (log : List ρ) : σ :=
  log.foldl step s

/-- One entry of the `group_version` set: the seven optional
`*_definition_version_arn` keys (`some` when the key is present). -/
structure RawGroupVersion where
  connectorDefinitionVersionArn : Option String
  coreDefinitionVersionArn : Option String
  deviceDefinitionVersionArn : Option String
  functionDefinitionVersionArn : Option String
  loggerDefinitionVersionArn : Option String
  resourceDefinitionVersionArn : Option String
  subscriptionDefinitionVersionArn : Option String
deriving DecidableEq, Repr

/-- The SDK request `greengrass.CreateGroupVersionInput`. -/
structure CreateGroupVersionInput where
  groupId : String
  amznClientToken : Option String
  connectorDefinitionVersionArn : Option String
  coreDefinitionVersionArn : Option String
  deviceDefinitionVersionArn : Option String
  functionDefinitionVersionArn : Option String
  loggerDefinitionVersionArn : Option String
  resourceDefinitionVersionArn : Option String
  subscriptionDefinitionVersionArn : Option String
deriving DecidableEq, Repr

/-- The request `createGroupVersion` builds from the raw entry: `GroupId`
from the resource id, the token from the environment when non-empty, and
each arn key forwarded when present. -/
def mkCreateGroupVersionInput (gid : String) (env : Option String)
    (raw : RawGroupVersion) : CreateGroupVersionInput :=
  { groupId := gid
    amznClientToken :=
      let v := osGetenv env
      if v ≠ "" then some v else none
    connectorDefinitionVersionArn := raw.connectorDefinitionVersionArn
    coreDefinitionVersionArn := raw.coreDefinitionVersionArn
    deviceDefinitionVersionArn := raw.deviceDefinitionVersionArn
    functionDefinitionVersionArn := raw.functionDefinitionVersionArn
    loggerDefinitionVersionArn := raw.loggerDefinitionVersionArn
    resourceDefinitionVersionArn := raw.resourceDefinitionVersionArn
    subscriptionDefinitionVersionArn := raw.subscriptionDefinitionVersionArn }

/-- `createGroupVersion`: empty `group_version` set — return nil without
calling the API; otherwise build the request from the set's first entry,
issue `conn.CreateGroupVersion` once and return its error. -/
def createGroupVersion {ε : Type} (versionSet : List RawGroupVersion)
    (env : Option String) (gid : String)
    (api : CreateGroupVersionInput → Option ε) : CallOutcome CreateGroupVersionInput ε :=
  match versionSet with
  | [] => ⟨[], none⟩
  | raw :: _ =>
    let params := mkCreateGroupVersionInput gid env raw
    ⟨[params], api params⟩

/-- One entry of the `logger` set: `component`, `id`, `level`, `type`
required, `space` optional. -/
structure RawLogger where
  component : String
  id : String
  level : String
  loggerType : String
  space : Option Int
deriving DecidableEq, Repr

/-- The SDK struct `greengrass.Logger` (pointer fields). -/
structure Logger where
  component : Option String
  id : Option String
  level : Option String
  loggerType : Option String
  space : Option Int
deriving DecidableEq, Repr

/-- The loop body of `createLoggerDefinitionVersion`: the four required keys
via `aws.String`, `Space` only when its key is present. -/
def parseLogger (raw : RawLogger) : Logger :=
  { component := some raw.component
    id := some raw.id
    level := some raw.level
    loggerType := some raw.loggerType
    space :=
      match raw.space with
      | some v => some v
      | none => none }

/-- One entry of the `logger_definition_version` set. -/
structure RawLoggerVersion where
  logger : List RawLogger
deriving DecidableEq, Repr

/-- The SDK request `greengrass.CreateLoggerDefinitionVersionInput`. -/
structure CreateLoggerDefinitionVersionInput where
  loggerDefinitionId : String
  amznClientToken : Option String
  loggers : List Logger
deriving DecidableEq, Repr

/-- The request `createLoggerDefinitionVersion` builds from the raw entry. -/
def mkCreateLoggerDefinitionVersionInput (lid : String) (env : Option String)
    (raw : RawLoggerVersion) : CreateLoggerDefinitionVersionInput :=
  { loggerDefinitionId := lid
    amznClientToken :=
      let v := osGetenv env
      if v ≠ "" then some v else none
    loggers := raw.logger.map parseLogger }

/-- `createLoggerDefinitionVersion`: empty `logger_definition_version` set —
return nil without calling the API; otherwise build the request from the
set's first entry, issue `conn.CreateLoggerDefinitionVersion` once and
return its error. -/
def createLoggerDefinitionVersion {ε : Type} (versionSet : List RawLoggerVersion)
    (env : Option String) (lid : String)
    (api : CreateLoggerDefinitionVersionInput → Option ε) :
    CallOutcome CreateLoggerDefinitionVersionInput ε :=
  match versionSet with
  | [] => ⟨[], none⟩
  | raw :: _ =>
    let params := mkCreateLoggerDefinitionVersionInput lid env raw
    ⟨[params], api params⟩

/-- Complete characterisation of `retryLoopAux`: either every attempt covered
by the schedule fails — the loop runs the whole schedule, sleeps every entry
and ends with the last attempt's error — or there is a first succeeding
attempt `j` (0-based), and the loop performs `j + 1` invocations, sleeps
exactly the first `j` schedule entries and ends with `err = none`. -/
theorem retryLoopAux_spec {ε : Type} (call : Nat → Option ε) :
    ∀ (l : List Nat) (k : Nat) (e0 : Option ε),
      ((∀ i, i < l.length → (call (k + i)).isSome) ∧
        retryLoopAux call l k e0 =
          ⟨l.length, l, if l.length = 0 then e0 else call (k + l.length - 1)⟩) ∨
      (∃ j, j < l.length ∧ call (k + j) = none ∧
        (∀ i, i < j → (call (k + i)).isSome) ∧
        retryLoopAux call l k e0 = ⟨j + 1, l.take j, none⟩) := by
  intro l
  induction l with
  | nil =>
    intro k e0
    left
    exact ⟨fun i hi => absurd hi (by simp), by simp [retryLoopAux]⟩
  | cons s rest ih =>
    intro k e0
    cases hc : call k with
    | none =>
      right
      refine ⟨0, by simp, by simpa using hc, fun i hi => absurd hi (Nat.not_lt_zero i), ?_⟩
      simp [retryLoopAux, hc]
    | some e =>
      rcases ih (k + 1) (some e) with ⟨hall, heq⟩ | ⟨j, hj, hnone, hpre, heq⟩
      · left
        constructor
        · intro i hi
          cases i with
          | zero => simp [hc]
          | succ i' =>
            have hi' : i' < rest.length := by simpa using hi
            have := hall i' hi'
            have harith : k + (i' + 1) = k + 1 + i' := by omega
            rw [harith]
            exact this
        · simp only [retryLoopAux, hc]
          rw [heq]
          cases rest with
          | nil => simp [hc]
          | cons s' rest' =>
            have h1 : k + 1 + (s' :: rest').length - 1 = k + (s' :: rest').length := by
              simp
              omega
            simp only [h1]
            have h2 : k + 1 + rest'.length = k + (rest'.length + 1) := by omega
            simp [h2]
      · right
        refine ⟨j + 1, by simpa using Nat.succ_lt_succ hj, ?_, ?_, ?_⟩
        · have harith : k + (j + 1) = k + 1 + j := by omega
          rw [harith]
          exact hnone
        · intro i hi
          cases i with
          | zero => simp [hc]
          | succ i' =>
            have hi' : i' < j := by omega
            have := hpre i' hi'
            have harith : k + (i' + 1) = k + 1 + i' := by omega
            rw [harith]
            exact this
        · simp [retryLoopAux, hc, heq]

/-- `retryLoopAux_spec` instantiated at the source's schedule and start state:
either all six attempts fail — six invocations, every schedule entry slept,
final error the sixth attempt's — or the first success is attempt `j + 1`,
with `j + 1` invocations, the first `j` schedule entries slept, no error. -/
theorem runRetry_spec {ε : Type} (call : Nat → Option ε) :
    ((∀ i, i < 6 → (call i).isSome) ∧
      runRetry call = ⟨6, [1, 2, 5, 8, 10, 0], call 5⟩) ∨
    (∃ j, j < 6 ∧ call j = none ∧ (∀ i, i < j → (call i).isSome) ∧
      runRetry call = ⟨j + 1, List.take j [1, 2, 5, 8, 10, 0], none⟩) := by
  have h := retryLoopAux_spec call retrySecondsList 0 none
  simpa [runRetry, retrySecondsList] using h

example : runRetry (fun k => some k) = ⟨6, [1, 2, 5, 8, 10, 0], some 5⟩ := by decide
example : runRetry (fun _ => (none : Option Nat)) = ⟨1, [], none⟩ := by decide
example : runRetry (fun k => if k < 5 then some k else (none : Option Nat)) =
    ⟨6, [1, 2, 5, 8, 10], none⟩ := by decide
example : runRetry (fun k => if k < 2 then some k else (none : Option Nat)) =
    ⟨3, [1, 2], none⟩ := by decide

/-- Claim C1: for every fallible operation passed to the retry loop used by
channel/datastore create and update, the delays slept between consecutive
attempts follow exactly the schedule 1s, 2s, 5s, 8s, 10s in that order
(all five being slept when six attempts occur), and the total delay slept
after the final attempt — including the schedule's closing 0s entry — is
0 seconds. -/
theorem retry_delay_schedule {ε : Type} (op : Nat → Option ε) :
    (runRetry op).sleeps.take ((runRetry op).invocations - 1) =
      List.take ((runRetry op).invocations - 1) [1, 2, 5, 8, 10] ∧
    ((runRetry op).sleeps.drop ((runRetry op).invocations - 1)).sum = 0 ∧
    ((runRetry op).invocations = 6 →
      (runRetry op).sleeps.take 5 = [1, 2, 5, 8, 10]) := by
  rcases runRetry_spec op with ⟨hall, heq⟩ | ⟨j, hj, hnone, hpre, heq⟩
  · rw [heq]
    refine ⟨by simp, by simp, fun _ => by simp⟩
  · rw [heq]
    interval_cases j <;> simp

/-- Claim C1, instantiated: the operation that fails on every attempt. -/
theorem retry_delay_schedule_witness :
    (runRetry (fun k => some k)).sleeps.take
        ((runRetry (fun k => some k)).invocations - 1) =
      List.take ((runRetry (fun k => some k)).invocations - 1) [1, 2, 5, 8, 10] ∧
    ((runRetry (fun k => some k)).sleeps.drop
        ((runRetry (fun k => some k)).invocations - 1)).sum = 0 ∧
    ((runRetry (fun k => some k)).invocations = 6 →
      (runRetry (fun k => some k)).sleeps.take 5 = [1, 2, 5, 8, 10]) :=
  retry_delay_schedule (fun k => some k)

/-- Claim C2: an operation that fails on all attempts is invoked exactly 6
times, and the error returned is the one produced by the 6th (last)
attempt. -/
theorem retry_all_fail_returns_last {ε : Type} (op : Nat → Option ε)
    (h : ∀ k, k < 6 → (op k).isSome) :
    (runRetry op).invocations = 6 ∧ (runRetry op).err = op 5 := by
  rcases runRetry_spec op with ⟨hall, heq⟩ | ⟨j, hj, hnone, hpre, heq⟩
  · rw [heq]
    exact ⟨rfl, rfl⟩
  · have hs := h j hj
    rw [hnone] at hs
    simp at hs

/-- Claim C2, instantiated: the operation whose k-th attempt fails with
error k is invoked 6 times and returns error 5 (the 6th attempt's). -/
theorem retry_all_fail_returns_last_witness :
    (runRetry (fun k => some k)).invocations = 6 ∧
      (runRetry (fun k => some k)).err = some 5 :=
  retry_all_fail_returns_last (fun k => some k) (fun _ _ => rfl)

/-- Claim C3: an operation that succeeds on its first attempt is invoked
exactly once, no sleep is executed (total slept time 0), and the loop
reports success. -/
theorem retry_first_success {ε : Type} (op : Nat → Option ε) (h : op 0 = none) :
    (runRetry op).invocations = 1 ∧ (runRetry op).sleeps = [] ∧
      (runRetry op).sleeps.sum = 0 ∧ (runRetry op).err = none := by
  simp [runRetry, retrySecondsList, retryLoopAux, h]

/-- Claim C3, instantiated: the always-succeeding operation. -/
theorem retry_first_success_witness :
    (runRetry (fun _ => (none : Option Nat))).invocations = 1 ∧
      (runRetry (fun _ => (none : Option Nat))).sleeps = [] ∧
      (runRetry (fun _ => (none : Option Nat))).sleeps.sum = 0 ∧
      (runRetry (fun _ => (none : Option Nat))).err = none :=
  retry_first_success (fun _ => none) rfl

/-- Claim C4: an operation that fails on attempts 1–5 and succeeds on
attempt 6 makes the loop report success after exactly 6 invocations, with
cumulative sleep at least 1+2+5+8+10 = 26 seconds (the sleeps being exactly
1s, 2s, 5s, 8s, 10s). -/
theorem retry_fail_five_succeed_sixth {ε : Type} (op : Nat → Option ε)
    (h5 : ∀ k, k < 5 → (op k).isSome) (h6 : op 5 = none) :
    (runRetry op).err = none ∧ (runRetry op).invocations = 6 ∧
      (runRetry op).sleeps = [1, 2, 5, 8, 10] ∧ 26 ≤ (runRetry op).sleeps.sum := by
  rcases runRetry_spec op with ⟨hall, heq⟩ | ⟨j, hj, hnone, hpre, heq⟩
  · have hs := hall 5 (by omega)
    rw [h6] at hs
    simp at hs
  · have hj5 : j = 5 := by
      by_contra hne
      have hlt : j < 5 := by omega
      have hs := h5 j hlt
      rw [hnone] at hs
      simp at hs
    subst hj5
    rw [heq]
    refine ⟨rfl, rfl, by simp, by simp⟩

/-- Claim C4, instantiated: fails (with error 7) until the 6th attempt. -/
theorem retry_fail_five_succeed_sixth_witness :
    (runRetry (fun k => if k < 5 then some 7 else (none : Option Nat))).err = none ∧
      (runRetry (fun k => if k < 5 then some 7 else (none : Option Nat))).invocations = 6 ∧
      (runRetry (fun k => if k < 5 then some 7 else (none : Option Nat))).sleeps =
        [1, 2, 5, 8, 10] ∧
      26 ≤ (runRetry (fun k => if k < 5 then some 7 else (none : Option Nat))).sleeps.sum :=
  retry_fail_five_succeed_sixth _ (fun k hk => by simp [hk]) (by simp)

/-- Claim C5: the retry loop inspects only success/failure, never the error
value.  Two operations with the same success/failure pattern — even with
error values of different types — give the same invocation count and the
same sleeps, and whenever the loop returns an error it is exactly the raw
error produced by its last invocation, unchanged. -/
theorem retry_no_error_introspection {ε₁ ε₂ : Type} (op₁ : Nat → Option ε₁)
    (op₂ : Nat → Option ε₂) (hpat : ∀ k, op₁ k = none ↔ op₂ k = none) :
    (runRetry op₁).invocations = (runRetry op₂).invocations ∧
    (runRetry op₁).sleeps = (runRetry op₂).sleeps ∧
    ((runRetry op₁).err.isSome →
      (runRetry op₁).err = op₁ ((runRetry op₁).invocations - 1)) ∧
    ((runRetry op₂).err.isSome →
      (runRetry op₂).err = op₂ ((runRetry op₂).invocations - 1)) := by
  rcases runRetry_spec op₁ with ⟨hall₁, heq₁⟩ | ⟨j₁, hj₁, hnone₁, hpre₁, heq₁⟩ <;>
    rcases runRetry_spec op₂ with ⟨hall₂, heq₂⟩ | ⟨j₂, hj₂, hnone₂, hpre₂, heq₂⟩
  · rw [heq₁, heq₂]
    exact ⟨rfl, rfl, fun _ => rfl, fun _ => rfl⟩
  · have hs := hall₁ j₂ hj₂
    rw [(hpat j₂).mpr hnone₂] at hs
    simp at hs
  · have hs := hall₂ j₁ hj₁
    rw [(hpat j₁).mp hnone₁] at hs
    simp at hs
  · have hjj : j₁ = j₂ := by
      by_contra hne
      rcases Nat.lt_or_ge j₁ j₂ with hlt | hge
      · have hs := hpre₂ j₁ hlt
        rw [(hpat j₁).mp hnone₁] at hs
        simp at hs
      · have hlt : j₂ < j₁ := by omega
        have hs := hpre₁ j₂ hlt
        rw [(hpat j₂).mpr hnone₂] at hs
        simp at hs
    subst hjj
    rw [heq₁, heq₂]
    exact ⟨rfl, rfl, fun hs => by simp at hs, fun hs => by simp at hs⟩

/-- Claim C5, instantiated: an always-failing ℕ-valued-error operation and
an always-failing String-valued-error operation behave identically. -/
theorem retry_no_error_introspection_witness :
    (runRetry (fun k => some (k + 1))).invocations =
      (runRetry (fun _ => some "e")).invocations ∧
    (runRetry (fun k => some (k + 1))).sleeps =
      (runRetry (fun _ => some "e")).sleeps ∧
    ((runRetry (fun k => some (k + 1))).err.isSome →
      (runRetry (fun k => some (k + 1))).err =
        (fun k => some (k + 1)) ((runRetry (fun k => some (k + 1))).invocations - 1)) ∧
    ((runRetry (fun _ => some "e")).err.isSome →
      (runRetry (fun _ => some "e")).err =
        (fun _ => some "e") ((runRetry (fun _ => some "e")).invocations - 1)) :=
  retry_no_error_introspection (fun k => some (k + 1)) (fun _ => some "e")
    (fun k => by simp)

/-- Claim C6: on a version-creation request (group version or logger
definition version) the idempotency token field equals `some t` exactly
when the `AMZN_CLIENT_TOKEN` environment variable is present with the
non-empty value `t`; otherwise the field is left unset.  The last two
conjuncts tie the request shape to the functions that issue it: a
non-empty version set issues exactly that one request. -/
theorem amzn_client_token_iff {ε₁ ε₂ : Type} (env : Option String) (t : String)
    (gid lid : String) (rawG : RawGroupVersion) (restG : List RawGroupVersion)
    (apiG : CreateGroupVersionInput → Option ε₁)
    (rawL : RawLoggerVersion) (restL : List RawLoggerVersion)
    (apiL : CreateLoggerDefinitionVersionInput → Option ε₂) :
    ((mkCreateGroupVersionInput gid env rawG).amznClientToken = some t ↔
      (env = some t ∧ t ≠ "")) ∧
    ((mkCreateLoggerDefinitionVersionInput lid env rawL).amznClientToken = some t ↔
      (env = some t ∧ t ≠ "")) ∧
    (createGroupVersion (rawG :: restG) env gid apiG).requests =
      [mkCreateGroupVersionInput gid env rawG] ∧
    (createLoggerDefinitionVersion (rawL :: restL) env lid apiL).requests =
      [mkCreateLoggerDefinitionVersionInput lid env rawL] := by
  refine ⟨?_, ?_, rfl, rfl⟩
  · cases env with
    | none => simp [mkCreateGroupVersionInput, osGetenv]
    | some v =>
      by_cases hv : v = ""
      · subst hv
        simp [mkCreateGroupVersionInput, osGetenv]
        exact fun h => h.symm
      · simp only [mkCreateGroupVersionInput, osGetenv, Option.getD_some, if_pos hv,
          Option.some_inj]
        constructor
        · rintro rfl
          exact ⟨rfl, hv⟩
        · rintro ⟨hvt, _⟩
          exact hvt
  · cases env with
    | none => simp [mkCreateLoggerDefinitionVersionInput, osGetenv]
    | some v =>
      by_cases hv : v = ""
      · subst hv
        simp [mkCreateLoggerDefinitionVersionInput, osGetenv]
        exact fun h => h.symm
      · simp only [mkCreateLoggerDefinitionVersionInput, osGetenv, Option.getD_some,
          if_pos hv, Option.some_inj]
        constructor
        · rintro rfl
          exact ⟨rfl, hv⟩
        · rintro ⟨hvt, _⟩
          exact hvt

/-- Claim C7: a channel/datastore create that succeeds within the retry
window sets the resource id to the configured `name` attribute and
immediately re-reads the resource before returning; when every attempt
fails the id is never set and no re-read happens. -/
theorem create_sets_id_iff_success {ε : Type} (name : String) (op : Nat → Option ε)
    (readResult : Option ε) :
    ((∃ k, k < 6 ∧ op k = none) →
      (resourceAwsIotAnalyticsChannelCreate name op readResult).resourceId = some name ∧
      (resourceAwsIotAnalyticsChannelCreate name op readResult).readCalled = true ∧
      (resourceAwsIotAnalyticsDatastoreCreate name op readResult).resourceId = some name ∧
      (resourceAwsIotAnalyticsDatastoreCreate name op readResult).readCalled = true) ∧
    ((∀ k, k < 6 → (op k).isSome) →
      (resourceAwsIotAnalyticsChannelCreate name op readResult).resourceId = none ∧
      (resourceAwsIotAnalyticsChannelCreate name op readResult).readCalled = false ∧
      (resourceAwsIotAnalyticsDatastoreCreate name op readResult).resourceId = none ∧
      (resourceAwsIotAnalyticsDatastoreCreate name op readResult).readCalled = false) := by
  constructor
  · rintro ⟨k, hk, hsucc⟩
    have herr : (runRetry op).err = none := by
      rcases runRetry_spec op with ⟨hall, heq⟩ | ⟨j, hj, hnone, hpre, heq⟩
      · have hs := hall k hk
        rw [hsucc] at hs
        simp at hs
      · rw [heq]
    simp [resourceAwsIotAnalyticsChannelCreate, resourceAwsIotAnalyticsDatastoreCreate,
      herr]
  · intro hfail
    obtain ⟨e, he⟩ : ∃ e, (runRetry op).err = some e := by
      rcases runRetry_spec op with ⟨hall, heq⟩ | ⟨j, hj, hnone, hpre, heq⟩
      · rw [heq]
        have hs := hfail 5 (by omega)
        exact Option.isSome_iff_exists.mp hs
      · have hs := hfail j hj
        rw [hnone] at hs
        simp at hs
    simp [resourceAwsIotAnalyticsChannelCreate, resourceAwsIotAnalyticsDatastoreCreate,
      he]

/-- Claim C7, instantiated: a create whose call succeeds at once sets the
id and re-reads; one whose call always fails sets no id. -/
theorem create_sets_id_iff_success_witness :
    (resourceAwsIotAnalyticsChannelCreate "n" (fun _ => (none : Option Nat))
        none).resourceId = some "n" ∧
    (resourceAwsIotAnalyticsChannelCreate "n" (fun _ => (none : Option Nat))
        none).readCalled = true ∧
    (resourceAwsIotAnalyticsChannelCreate "n" (fun _ => (some 3 : Option Nat))
        none).resourceId = none ∧
    (resourceAwsIotAnalyticsDatastoreCreate "n" (fun _ => (some 3 : Option Nat))
        none).resourceId = none := by
  have h1 := (create_sets_id_iff_success "n" (fun _ => (none : Option Nat)) none).1
    ⟨0, by omega, rfl⟩
  have h2 := (create_sets_id_iff_success "n" (fun _ => (some 3 : Option Nat)) none).2
    (fun _ _ => rfl)
  exact ⟨h1.1, h1.2.1, h2.1, h2.2.2.1⟩

/-- Claim C8: `parseRetentionPeriod` forwards `number_of_days` only when its
value is strictly greater than 1, although the schema validator
`IntAtLeast(1)` accepts 1; a configured value of exactly 1 yields
`NumberOfDays = nil` — it is silently dropped from the request. -/
theorem parseRetentionPeriod_drops_one :
    (∀ raw v, raw.numberOfDays = some v →
      ((parseRetentionPeriod raw).numberOfDays = some v ↔ 1 < v)) ∧
    validationIntAtLeast 1 1 = true ∧
    (∀ raw, raw.numberOfDays = some 1 →
      (parseRetentionPeriod raw).numberOfDays = none) := by
  refine ⟨?_, by decide, ?_⟩
  · intro raw v h
    by_cases h1 : 1 < v <;> simp [parseRetentionPeriod, h, h1]
  · intro raw h
    simp [parseRetentionPeriod, h]

/-- Claim C8, instantiated: the bag entry `number_of_days = 1` is accepted
by the validator yet parses to `NumberOfDays = nil`, while 2 is kept. -/
theorem parseRetentionPeriod_drops_one_witness :
    (parseRetentionPeriod ⟨some 1, none⟩).numberOfDays = none ∧
    validationIntAtLeast 1 1 = true ∧
    (parseRetentionPeriod ⟨some 2, none⟩).numberOfDays = some 2 := by
  have h := parseRetentionPeriod_drops_one
  exact ⟨h.2.2 ⟨some 1, none⟩ rfl, h.2.1, (h.1 ⟨some 2, none⟩ 2 rfl).mpr (by omega)⟩

/-- Claim C9: round trip of the customer-managed S3 codec.  For a struct
with non-nil `Bucket` and `RoleArn` and a `KeyPrefix` that is nil or a
non-empty string, `parse ∘ flatten` is the identity; a non-nil empty
`KeyPrefix` comes back as nil instead. -/
theorem customerManagedS3_roundtrip (b r : String) (kp : Option String) :
    (kp ≠ some "" →
      (flattenCustomerManagedS3 (some ⟨some b, some r, kp⟩)).map
          parseCustomerManagedS3 = some ⟨some b, some r, kp⟩) ∧
    (flattenCustomerManagedS3 (some ⟨some b, some r, some ""⟩)).map
        parseCustomerManagedS3 = some ⟨some b, some r, none⟩ := by
  constructor
  · intro hkp
    cases kp with
    | none => simp [flattenCustomerManagedS3, parseCustomerManagedS3]
    | some s =>
      have hs : s ≠ "" := fun h => hkp (by rw [h])
      have hlen : 1 ≤ s.length := by
        by_contra hcon
        have h0 : s.length = 0 := by omega
        have hdata : s.data.length = 0 := by rw [String.length_data, h0]
        have hnil : s.data = [] := List.length_eq_zero.mp hdata
        exact hs (String.ext hnil)
      simp [flattenCustomerManagedS3, parseCustomerManagedS3, hlen]
  · simp [flattenCustomerManagedS3, parseCustomerManagedS3]

/-- Claim C9, instantiated: a concrete struct with a non-empty prefix
round-trips to itself; with the empty-string prefix it comes back nil. -/
theorem customerManagedS3_roundtrip_witness :
    (flattenCustomerManagedS3 (some ⟨some "b", some "r", some "p"⟩)).map
        parseCustomerManagedS3 = some ⟨some "b", some "r", some "p"⟩ ∧
    (flattenCustomerManagedS3 (some ⟨some "b", some "r", some ""⟩)).map
        parseCustomerManagedS3 = some ⟨some "b", some "r", none⟩ := by
  have h := customerManagedS3_roundtrip "b" "r" (some "p")
  exact ⟨h.1 (by simp), h.2⟩

/-- Claim C10: with an empty version-configuration set, `createGroupVersion`
and `createLoggerDefinitionVersion` return success while issuing no remote
request, so replaying their (empty) request log leaves any remote state
unchanged; neither function touches the local resource state at all. -/
theorem empty_version_set_no_remote_call {ε₁ ε₂ σ₁ σ₂ : Type} (env : Option String)
    (gid lid : String) (apiG : CreateGroupVersionInput → Option ε₁)
    (apiL : CreateLoggerDefinitionVersionInput → Option ε₂)
    (stepG : σ₁ → CreateGroupVersionInput → σ₁) (sG : σ₁)
    (stepL : σ₂ → CreateLoggerDefinitionVersionInput → σ₂) (sL : σ₂) :
    (createGroupVersion [] env gid apiG).requests = [] ∧
    (createGroupVersion [] env gid apiG).err = none ∧
    applyRequests stepG sG (createGroupVersion [] env gid apiG).requests = sG ∧
    (createLoggerDefinitionVersion [] env lid apiL).requests = [] ∧
    (createLoggerDefinitionVersion [] env lid apiL).err = none ∧
    applyRequests stepL sL (createLoggerDefinitionVersion [] env lid apiL).requests = sL :=
  ⟨rfl, rfl, rfl, rfl, rfl, rfl⟩
